import Mathlib

set_option maxRecDepth 40000

/-! Shallow embedding of the TTS conversion-and-assembly pipeline of the
ebook-to-audiobook repository: the chapter converter and cache of
src/core/tts_converter.py, the audio merger of src/core/audio_merger.py and
the speed-adjustment step of src/backend/app/services/tts_service.py.
External effects (TTS backends, the filesystem, the diskcache store) are
modelled as explicit state and oracles; all definitions are executable. -/

/-- Python whitespace (the ASCII characters matched by str.strip with no
arguments and by the regex whitespace class). -/
def isPySpace (c : Char) : Bool :=
  c = ' ' || c = '\t' || c = '\n' || c = '\x0b' || c = '\x0c' || c = '\r'

/-- Python str.strip with no arguments: drop leading and trailing whitespace. -/
def pyStrip (s : String) : String :=
  String.mk (((s.data.dropWhile isPySpace).reverse.dropWhile isPySpace).reverse)

/-- The filesystem-unsafe characters replaced by _sanitize_filename
(the regex character class of less-than, greater-than, colon, double quote,
slash, backslash, pipe, question mark, star). -/
def isForbiddenChar (c : Char) : Bool :=
  c = '<' || c = '>' || c = ':' || c = '"' || c = '/' || c = '\\' || c = '|' || c = '?' || c = '*'

/-- Replace each maximal run of whitespace by a single underscore (the
re.sub of a whitespace-run pattern with an underscore). The flag records
whether the previous character was part of a whitespace run. -/
def collapseWs : Bool → List Char → List Char
  | _, [] => []
  | prev, c :: cs =>
    if isPySpace c then
      if prev then collapseWs true cs else '_' :: collapseWs true cs
    else c :: collapseWs false cs

def isDotUnderscore (c : Char) : Bool := c = '.' || c = '_'

/-- TTSConverter._sanitize_filename: replace forbidden filesystem characters
by underscores, collapse whitespace runs to single underscores, strip leading
and trailing dots and underscores, truncate to 100 characters, and default to
"untitled" when nothing remains. -/
def sanitize_filename (filename : String) : String :=
  let s1 := filename.data.map (fun c => if isForbiddenChar c then '_' else c)
  let s2 := collapseWs false s1
  let s3 := ((s2.dropWhile isDotUnderscore).reverse.dropWhile isDotUnderscore).reverse
  let s4 := s3.take 100
  if s4.isEmpty then "untitled" else String.mk s4

def digitChar (d : Nat) : Char :=
  if d = 0 then '0' else if d = 1 then '1' else if d = 2 then '2' else if d = 3 then '3'
  else if d = 4 then '4' else if d = 5 then '5' else if d = 6 then '6' else if d = 7 then '7'
  else if d = 8 then '8' else '9'

/-- The Python format spec %03d (used as index:03d in the chapter file name):
decimal digits, zero-padded on the left to width three. -/
def py03d (n : Nat) : String :=
  if n < 1000 then String.mk [digitChar (n / 100), digitChar (n / 10 % 10), digitChar (n % 10)]
  else toString n

/-- Lexicographic comparison of character lists by code point — the order
Python string comparison uses. -/
def lexLe : List Char → List Char → Bool
  | [], _ => true
  | _ :: _, [] => false
  | a :: as, b :: bs =>
    if a.toNat < b.toNat then true
    else if b.toNat < a.toNat then false
    else lexLe as bs

def pyStrLe (a b : String) : Bool := lexLe a.data b.data

def insertLe (a : String) : List String → List String
  | [] => [a]
  | b :: bs => if pyStrLe a b then a :: b :: bs else b :: insertLe a bs

/-- Python sorted() on strings: the ascending reordering with respect to
lexicographic code-point comparison, realized as an insertion sort. -/
def pySorted : List String → List String
  | [] => []
  | a :: as => insertLe a (pySorted as)

/-- Python enumerate, starting at index i. -/
def pyEnumFrom (i : Nat) : List α → List (Nat × α)
  | [] => []
  | a :: as => (i, a) :: pyEnumFrom (i + 1) as

def pyEnum (l : List α) : List (Nat × α) := pyEnumFrom 0 l

/-- asyncio.gather with return_exceptions=True: the tasks run concurrently and
finish in the completion order sched (a list of indices into the task list);
gather re-slots the results into task order, so its output never depends on
the completion order. The completions are collected as pairs of task index
and result in completion order, then read back slot by slot. -/
def gather (tasks : List α) (sched : List Nat) : List α :=
  let completions := sched.filterMap (fun i => tasks[i]?.map (fun r => (i, r)))
  (List.range tasks.length).filterMap
    (fun i => (completions.find? (fun c => c.1 == i)).map (fun c => c.2))

/-- A chapter as handed to TTSConverter.convert_chapters_to_audio: a dict with
an optional title and a text. -/
structure Chapter where
  title : Option String
  text : String

/-- chapter.get with the default title "Chapter index+1". -/
def chapterTitle (ch : Chapter) (index : Nat) : String :=
  ch.title.getD ("Chapter " ++ toString (index + 1))

/-- os.path.join for a directory name without a trailing separator. -/
def pathJoin (dir name : String) : String := dir ++ "/" ++ name

/-- The per-chapter output path built in convert_single_chapter:
output_dir joined with index as %03d, an underscore, the sanitized title and
the .mp3 suffix. -/
def chapterPath (outputDir : String) (index : Nat) (ch : Chapter) : String :=
  pathJoin outputDir (py03d index ++ "_" ++ sanitize_filename (chapterTitle ch index) ++ ".mp3")

/-- Body of the convert_single_chapter closure in convert_chapters_to_audio:
build the output path and call convert_text_to_audio; on success the path is
the task result, otherwise None. The success of the inner
convert_text_to_audio call (which depends on external engines, cache and
filesystem) is abstracted by the boolean ok. -/
def convert_single_chapter (outputDir : String) (ch : Chapter) (index : Nat) (ok : Bool) :
    Option String :=
  if ok then some (chapterPath outputDir index ch) else none

/-- TTSConverter.convert_chapters_to_audio: one task per chapter via
enumerate, awaited with asyncio.gather (completion order sched), then the
non-None, non-empty results are collected and returned through sorted().
The per-chapter conversion outcome is abstracted by success applied to the
chapter index. -/
def convert_chapters_to_audio (outputDir : String) (chapters : List Chapter)
    (success : Nat → Bool) (sched : List Nat) : List String :=
  pySorted
    ((gather
        ((pyEnum chapters).map (fun p => convert_single_chapter outputDir p.2 p.1 (success p.1)))
        sched).filterMap
      (fun r =>
        match r with
        | some s => if s = "" then none else some s
        | none => none))

/-- The paths of the successful chapters in original chapter-index order:
the order the specification requires convert_chapters_to_audio to return. -/
def indexOrderedResults (outputDir : String) (chapters : List Chapter) (success : Nat → Bool) :
    List String :=
  (pyEnum chapters).filterMap
    (fun p => if success p.1 then some (chapterPath outputDir p.1 p.2) else none)

/-- C1 counterexample input: 1001 identical chapters, so the chapter indices
run from 0 to 1000 and index 1000 overflows the %03d zero padding. -/
def bigChapters : List Chapter := List.replicate 1001 ⟨some "t", "x"⟩

/-- The path of chapter i in the 1001-chapter counterexample input. -/
def samplePath (i : Nat) : String := pathJoin "o" (py03d i ++ "_" ++ "t" ++ ".mp3")

/-- C2 counterexample input: five identical chapters. -/
def fiveChapters : List Chapter := List.replicate 5 ⟨some "t", "x"⟩

/- ## Model of TTSConverter.convert_text_to_audio -/

/-- Audio file contents as raw bytes. -/
abbrev Bytes := List Nat

/-- The TTSConverter fields read by convert_text_to_audio: the active engine
name, the voice, the formatted settings.speech_rate that appears in the cache
key, and the cache_enabled flag. -/
structure TTSConv where
  engine : String
  voice : String
  speechRate : String
  cacheEnabled : Bool

/-- The external world of a convert_text_to_audio call: the filesystem and
the diskcache store as association lists (latest write first), one failure
switch per cache or file operation (an unavailable or corrupted store makes
the corresponding operation raise), and the synthesis backends as an oracle
from engine name and text to produced bytes, where none models a backend
failure — each _convert_with_* helper catches its own exceptions and returns
False. The oracle being a function makes synthesis deterministic. -/
structure World where
  files : List (String × Bytes)
  cache : List (String × Bytes)
  cacheContainsFails : Bool
  cacheGetFails : Bool
  hitWriteFails : Bool
  readBackFails : Bool
  cacheSetFails : Bool
  engineOut : String → String → Option Bytes

/-- Lookup in an association list, newest binding first. -/
def lookupA (m : List (String × Bytes)) (k : String) : Option Bytes :=
  (m.find? (fun p => p.1 == k)).map (fun p => p.2)

def writeFile (w : World) (path : String) (b : Bytes) : World :=
  { w with files := (path, b) :: w.files }

def cacheStore (w : World) (key : String) (b : Bytes) : World :=
  { w with cache := (key, b) :: w.cache }

/-- TTSConverter._get_cache_key: the md5 hex digest of the string
text_engine_voice_rate. The digest is modelled as the identity on the content
string: every claim in scope depends only on the key being a deterministic
function of (text, engine, voice, rate), never on a property of md5. -/
def get_cache_key (conv : TTSConv) (text : String) : String :=
  text ++ "_" ++ conv.engine ++ "_" ++ conv.voice ++ "_" ++ conv.speechRate

/-- Lines 137-145 of src/core/tts_converter.py: dispatch on the engine name;
success stays False for any other name. -/
def engine_dispatch (w : World) (engine text : String) : Option Bytes :=
  if engine = "coqui-xtts" then w.engineOut "coqui-xtts" text
  else if engine = "edge-tts" then w.engineOut "edge-tts" text
  else if engine = "gtts" then w.engineOut "gtts" text
  else if engine = "pyttsx3" then w.engineOut "pyttsx3" text
  else none

/-- Lines 135-157 of convert_text_to_audio: invoke the active engine (which
writes the output file on success); when that succeeded and caching is
enabled, try to read the output file back and store the bytes under the cache
key, swallowing any read-back or store failure (the inner try block). -/
def synth_and_cache (conv : TTSConv) (w : World) (text outputPath key : String) :
    Bool × World :=
  match engine_dispatch w conv.engine text with
  | none => (false, w)
  | some b =>
    if conv.cacheEnabled then
      if (writeFile w outputPath b).readBackFails then (true, writeFile w outputPath b)
      else
        match lookupA (writeFile w outputPath b).files outputPath with
        | some data =>
          if (writeFile w outputPath b).cacheSetFails then (true, writeFile w outputPath b)
          else (true, cacheStore (writeFile w outputPath b) key data)
        | none => (true, writeFile w outputPath b)
    else (true, writeFile w outputPath b)

/-- TTSConverter.convert_text_to_audio (lines 107-161). Empty or
whitespace-only text returns False at once. Then the cache is consulted: the
membership test (key in self.cache) stands OUTSIDE every try block, so a
store that raises there propagates the exception to the caller (modelled as
Except.error). On a hit, reading the entry and writing it to the output path
are guarded: a failure logs a warning and falls through to fresh synthesis.
Otherwise the call synthesizes directly and caches the result best-effort. -/
def convert_text_to_audio (conv : TTSConv) (w : World) (text outputPath : String) :
    Except Unit (Bool × World) :=
  if text = "" ∨ pyStrip text = "" then Except.ok (false, w)
  else
    if conv.cacheEnabled then
      if w.cacheContainsFails then Except.error ()
      else
        match lookupA w.cache (get_cache_key conv text) with
        | some b =>
          if w.cacheGetFails then
            Except.ok (synth_and_cache conv w text outputPath (get_cache_key conv text))
          else if w.hitWriteFails then
            Except.ok (synth_and_cache conv w text outputPath (get_cache_key conv text))
          else Except.ok (true, writeFile w outputPath b)
        | none => Except.ok (synth_and_cache conv w text outputPath (get_cache_key conv text))
    else Except.ok (synth_and_cache conv w text outputPath (get_cache_key conv text))

/-- The supported_engines list of TTSConverter.__init__. -/
def supported_engines : List String := ["coqui-xtts", "edge-tts", "gtts", "pyttsx3"]

/-- Engine selection at construction (TTSConverter.__init__ together with
_init_engines and _init_coqui_tts): an unsupported engine name falls back to
edge-tts with a warning; when the selected engine is coqui-xtts, the Coqui
package is importable and the model load fails, the engine is set to
edge-tts. This is the only engine fallback in the converter. -/
def initEngine (requested : String) (coquiAvailable coquiLoadOk : Bool) : String :=
  if requested ∈ supported_engines then
    if requested = "coqui-xtts" && coquiAvailable && !coquiLoadOk then "edge-tts" else requested
  else "edge-tts"

/-- C3 counterexample world: a clean cache and filesystem, no operation
failing, and backends where edge-tts fails on every text while gtts
succeeds. -/
def c3World : World :=
  { files := [], cache := [], cacheContainsFails := false, cacheGetFails := false,
    hitWriteFails := false, readBackFails := false, cacheSetFails := false,
    engineOut := fun e _ => if e = "gtts" then some [7] else none }

/-- World for the C3 witness: every backend fails. -/
def c3bWorld : World :=
  { files := [], cache := [], cacheContainsFails := false, cacheGetFails := false,
    hitWriteFails := false, readBackFails := false, cacheSetFails := false,
    engineOut := fun _ _ => none }

/-- C4 witness world: clean store, no failures, a gtts backend producing the
bytes 1,2,3 for the text hi. -/
def c4World : World :=
  { files := [], cache := [], cacheContainsFails := false, cacheGetFails := false,
    hitWriteFails := false, readBackFails := false, cacheSetFails := false,
    engineOut := fun e t => if e = "gtts" && t = "hi" then some [1, 2, 3] else none }

/-- The converter of the C4 witness. -/
def c4Conv : TTSConv := { engine := "gtts", voice := "v", speechRate := "1.0", cacheEnabled := true }

/-- The world after the first C4 call: the synthesized bytes written to the
first output path and stored in the cache under the content key. -/
def c4World1 : World :=
  cacheStore (writeFile c4World "o1.mp3" [1, 2, 3]) (get_cache_key c4Conv "hi") [1, 2, 3]

/-- C5 counterexample world: the cache store raises on the membership test
(unavailable or corrupted store) while synthesis itself would succeed. -/
def c5World : World :=
  { files := [], cache := [], cacheContainsFails := true, cacheGetFails := false,
    hitWriteFails := false, readBackFails := false, cacheSetFails := false,
    engineOut := fun _ _ => some [1] }

/-- C5 witness world: the membership test works, but every guarded cache and
file operation fails (read of a present entry, write of cached bytes,
read-back, store) while the gtts backend succeeds. -/
def c5bWorld : World :=
  { files := [], cache := [(get_cache_key ⟨"gtts", "v", "1.0", true⟩ "hi", [9])],
    cacheContainsFails := false, cacheGetFails := true,
    hitWriteFails := true, readBackFails := true, cacheSetFails := true,
    engineOut := fun e _ => if e = "gtts" then some [2] else none }

/- ## Model of AudioMerger (src/core/audio_merger.py) -/

/-- A pydub AudioSegment, abstracted to the quantities the merger observes:
its duration in milliseconds and its mean-square amplitude (power) relative
to full scale. The dBFS loudness of a segment is 10 * log10 of the power, so
power 0 is digital silence at dBFS minus infinity; the power representation
keeps every merger operation exact over the rationals. -/
structure AudioSeg where
  durationMs : ℚ
  power : ℚ

/-- pydub concatenation (the + operator): the raw frames are appended, so
durations add and the mean-square power is the duration-weighted mean. -/
def appendSeg (a b : AudioSeg) : AudioSeg :=
  { durationMs := a.durationMs + b.durationMs,
    power :=
      if a.durationMs + b.durationMs = 0 then 0
      else (a.durationMs * a.power + b.durationMs * b.power) / (a.durationMs + b.durationMs) }

/-- AudioSegment.silent: frames of value zero for the given duration. -/
def silentSeg (d : ℚ) : AudioSeg := { durationMs := d, power := 0 }

/-- pydub len() of a segment in milliseconds (a Python int; the model keeps
the exact value — every claim in scope involves whole milliseconds). A
segment is falsy exactly when its length is zero. -/
def segLenMs (a : AudioSeg) : ℚ := a.durationMs

/-- pydub apply_gain of g dB multiplies every sample by 10 ^ (g / 20), hence
the mean-square power by the factor f = 10 ^ (g / 10); the model applies the
power factor directly, which keeps the arithmetic rational. -/
def applyGainPow (a : AudioSeg) (f : ℚ) : AudioSeg :=
  { durationMs := a.durationMs, power := a.power * f }

/-- The status of a path on disk as the merger sees it: absent
(os.path.exists false), present but failing to decode, or decoding to a
segment. -/
inductive FileStatus
  | missing
  | undecodable
  | audio (a : AudioSeg)

/-- The external world of a merge call: the filesystem as observed through
os.path.exists and AudioSegment.from_file, and the outcome of the export
step (encoding, ffmpeg tagging and the output filesystem). -/
structure MergeWorld where
  status : String → FileStatus
  exportOk : Bool

/-- The AudioMerger instance: silence_duration is settings.silence_duration
seconds, converted to milliseconds in __init__. -/
structure AudioMerger where
  silenceMs : ℚ

/-- What a merge produced: the success flag returned to the caller, and the
contents of the output audiobook file (none when no file was produced). -/
structure MergeResult where
  success : Bool
  output : Option AudioSeg

/-- The loop of AudioMerger._combine_audio_files: a missing file is skipped
with a warning, a file that fails to decode is skipped with an error, and
every decoded segment is appended as combined + silence + audio; the first
decoded segment initializes the accumulator, which starts as None. -/
def combineAux (m : AudioMerger) (w : MergeWorld) :
    Option AudioSeg → List String → Option AudioSeg
  | combined, [] => combined
  | combined, f :: fs =>
    match w.status f with
    | FileStatus.missing => combineAux m w combined fs
    | FileStatus.undecodable => combineAux m w combined fs
    | FileStatus.audio a =>
      match combined with
      | none => combineAux m w (some a) fs
      | some c => combineAux m w (some (appendSeg (appendSeg c (silentSeg m.silenceMs)) a)) fs

/-- AudioMerger._combine_audio_files (source name with a leading
underscore). -/
def combine_audio_files (m : AudioMerger) (w : MergeWorld) (audio_files : List String) :
    Option AudioSeg :=
  combineAux m w none audio_files

/-- AudioMerger._normalize_audio: the gain applied is
change_in_dbfs = -20.0 - audio.dBFS, which in power terms is the factor
10 ^ (change / 10) = (1/100) / power, landing the power exactly on the
-20 dBFS target 10 ^ (-20 / 10) = 1/100. On digital silence (power 0, dBFS
minus infinity) the computation raises and the except branch returns the
original audio unchanged. -/
def normalize_audio (a : AudioSeg) : AudioSeg :=
  if 0 < a.power then applyGainPow a (1 / 100 / a.power) else a

/-- AudioMerger.merge_audio_files: an empty input list fails at once; the
files are combined; a combined result that is None or zero-length fails the
falsiness test (if not combined_audio) and the call returns False without
producing a file; otherwise the combined audio is normalized and exported
with metadata, the export outcome becoming the overall success. -/
def merge_audio_files (m : AudioMerger) (w : MergeWorld) (audio_files : List String) :
    MergeResult :=
  if audio_files.isEmpty then { success := false, output := none }
  else
    match combine_audio_files m w audio_files with
    | none => { success := false, output := none }
    | some c =>
      if segLenMs c = 0 then { success := false, output := none }
      else
        if w.exportOk then { success := true, output := some (normalize_audio c) }
        else { success := false, output := none }

/-- Whether the merger can use the file at this status. -/
def isAudioF : FileStatus → Bool
  | FileStatus.audio _ => true
  | _ => false

/-- The duration the merger reads for a status (zero when undecodable). -/
def statusDurationMs (s : FileStatus) : ℚ :=
  match s with
  | FileStatus.audio a => a.durationMs
  | _ => 0

/-- C6 counterexample world: one listed path missing, a second path decoding
to a zero-length segment, export working. -/
def c6World : MergeWorld :=
  { status := fun f => if f = "gone.mp3" then FileStatus.missing
      else FileStatus.audio ⟨0, 0⟩,
    exportOk := true }

/-- C7 and C9 witness world: decodable chapters of 2.0 and 3.0 seconds at
full-scale power, export working. -/
def c7World : MergeWorld :=
  { status := fun f => if f = "a.mp3" then FileStatus.audio ⟨2000, 1⟩
      else if f = "b.mp3" then FileStatus.audio ⟨3000, 1⟩
      else FileStatus.missing,
    exportOk := true }

/- ## Model of TTSService._adjust_audio_speed (src/backend/app/services/tts_service.py) -/

/-- Raw audio as pydub holds it: a count of raw sample frames, the declared
frame rate, and the perceived pitch factor relative to the synthesized
material. Relabeling the frame rate makes the same frames play faster and
higher; a true resample changes the frame count so that duration and pitch
stay put. -/
structure RawAudio where
  frames : ℚ
  frameRate : ℚ
  pitchFactor : ℚ

/-- audio._spawn(raw_data, overrides=frame_rate): identical bytes under a new
nominal rate — duration becomes frames/newRate and the perceived pitch is
multiplied by newRate/oldRate. -/
def spawnWithFrameRate (a : RawAudio) (newRate : ℚ) : RawAudio :=
  { frames := a.frames, frameRate := newRate,
    pitchFactor := a.pitchFactor * (newRate / a.frameRate) }

/-- AudioSegment.set_frame_rate: a genuine resample to rate r — the frame
count is scaled so that duration and perceived pitch are preserved. -/
def set_frame_rate (a : RawAudio) (r : ℚ) : RawAudio :=
  { frames := a.frames * (r / a.frameRate), frameRate := r, pitchFactor := a.pitchFactor }

/-- Playback duration in seconds. -/
def durationSec (a : RawAudio) : ℚ := a.frames / a.frameRate

/-- TTSService._adjust_audio_speed: relabel the frame rate to
int(frame_rate * speed) — truncation, i.e. the floor for the positive rates
involved — and then set the frame rate back to the original value. -/
def adjust_audio_speed (a : RawAudio) (speed : ℚ) : RawAudio :=
  set_frame_rate (spawnWithFrameRate a ((⌊a.frameRate * speed⌋ : ℤ) : ℚ)) a.frameRate

/- ## Lemmas about gather -/

theorem find_completion {α : Type} (tasks : List α) (sched : List Nat) (i : Nat)
    (hi : i < tasks.length) (hmem : i ∈ sched) :
    (sched.filterMap (fun j => tasks[j]?.map (fun r => (j, r)))).find?
      (fun c => c.1 == i) = some (i, tasks[i]) := by
  induction sched with
  | nil => cases hmem
  | cons j js ih =>
    rw [List.filterMap_cons]
    by_cases hji : j = i
    · subst hji
      have hj : tasks[j]? = some tasks[j] := List.getElem?_eq_getElem hi
      simp [hj]
    · have hmem' : i ∈ js := by
        rcases List.mem_cons.mp hmem with h | h
        · exact absurd h.symm hji
        · exact h
      cases hj : tasks[j]? with
      | none => simpa [hj] using ih hmem'
      | some r =>
        have hne : (j == i) = false := beq_false_of_ne hji
        simp only [hj, Option.map_some']
        rw [List.find?_cons_of_neg]
        · exact ih hmem'
        · simp [hne]

theorem range_filterMap_get {α : Type} (l : List α) :
    (List.range l.length).filterMap (fun i => l[i]?) = l := by
  induction l with
  | nil => simp
  | cons a as ih =>
    simp only [List.length_cons, List.range_succ_eq_map, List.filterMap_cons]
    simp only [List.filterMap_map]
    have h2 : ((fun i => (a :: as)[i]?) ∘ (fun i => i + 1)) = (fun i => as[i]?) := by
      funext i; simp
    simp only [Function.comp_def] at h2
    simp only [Function.comp_def, h2]
    simp [ih]

theorem gather_of_complete {α : Type} (tasks : List α) (sched : List Nat)
    (h : ∀ i, i < tasks.length → i ∈ sched) : gather tasks sched = tasks := by
  unfold gather
  have h1 : ∀ i ∈ List.range tasks.length,
      ((sched.filterMap (fun j => tasks[j]?.map (fun r => (j, r)))).find?
        (fun c => c.1 == i)).map (fun c => c.2) = tasks[i]? := by
    intro i hi
    have hi' : i < tasks.length := List.mem_range.mp hi
    rw [find_completion tasks sched i hi' (h i hi')]
    simp [List.getElem?_eq_getElem hi']
  rw [List.filterMap_congr h1]
  exact range_filterMap_get tasks

/- ## Lemmas about the chapter pipeline -/

theorem pyEnumFrom_length {α : Type} (i : Nat) (l : List α) :
    (pyEnumFrom i l).length = l.length := by
  induction l generalizing i with
  | nil => rfl
  | cons a as ih => simp [pyEnumFrom, ih]

theorem chapterPath_ne_empty (outputDir : String) (index : Nat) (ch : Chapter) :
    chapterPath outputDir index ch ≠ "" := by
  intro h
  have hl := congrArg String.length h
  simp [chapterPath, pathJoin, String.length_append] at hl
  exact absurd hl.1.2 (by decide)

theorem convert_chapters_eq_sorted (outputDir : String) (chapters : List Chapter)
    (success : Nat → Bool) (sched : List Nat)
    (hs : ∀ i, i < chapters.length → i ∈ sched) :
    convert_chapters_to_audio outputDir chapters success sched =
      pySorted (indexOrderedResults outputDir chapters success) := by
  unfold convert_chapters_to_audio
  have hlen : ((pyEnum chapters).map
      (fun p => convert_single_chapter outputDir p.2 p.1 (success p.1))).length
      = chapters.length := by
    simp [pyEnum, pyEnumFrom_length]
  rw [gather_of_complete _ sched (fun i hi => hs i (by omega))]
  rw [List.filterMap_map]
  congr 1
  unfold indexOrderedResults
  apply List.filterMap_congr
  intro p _
  by_cases hp : success p.1 <;>
    simp [Function.comp_def, convert_single_chapter, hp, chapterPath_ne_empty]

/- ## Lexicographic order of the generated paths -/

theorem digitChar_lt : ∀ d, d < 10 → ∀ e, e < 10 → d < e →
    (digitChar d).toNat < (digitChar e).toNat := by decide

theorem lexLe_append_left (p a b : List Char) : lexLe (p ++ a) (p ++ b) = lexLe a b := by
  induction p with
  | nil => rfl
  | cons c cs ih => simp [lexLe, ih]

theorem lexLe_of_head_lt (a b : Char) (as bs : List Char) (h : a.toNat < b.toNat) :
    lexLe (a :: as) (b :: bs) = true := by simp [lexLe, h]

theorem lexLe_cons_self (c : Char) (as bs : List Char) :
    lexLe (c :: as) (c :: bs) = lexLe as bs := by simp [lexLe]

theorem py03d_append_lexLe (i j : Nat) (hij : i < j) (hj : j < 1000) (r s : List Char) :
    lexLe ((py03d i).data ++ r) ((py03d j).data ++ s) = true := by
  have hi : i < 1000 := Nat.lt_trans hij hj
  have hdi : (py03d i).data = [digitChar (i / 100), digitChar (i / 10 % 10), digitChar (i % 10)] := by
    simp [py03d, hi]
  have hdj : (py03d j).data = [digitChar (j / 100), digitChar (j / 10 % 10), digitChar (j % 10)] := by
    simp [py03d, hj]
  rw [hdi, hdj]
  simp only [List.cons_append, List.nil_append]
  have b2i : i / 100 < 10 := by omega
  have b2j : j / 100 < 10 := by omega
  have b1i : i / 10 % 10 < 10 := by omega
  have b1j : j / 10 % 10 < 10 := by omega
  have b0i : i % 10 < 10 := by omega
  have b0j : j % 10 < 10 := by omega
  by_cases hA : i / 100 < j / 100
  · exact lexLe_of_head_lt _ _ _ _ (digitChar_lt _ b2i _ b2j hA)
  · have hA' : i / 100 = j / 100 := by omega
    rw [hA', lexLe_cons_self]
    by_cases hB : i / 10 % 10 < j / 10 % 10
    · exact lexLe_of_head_lt _ _ _ _ (digitChar_lt _ b1i _ b1j hB)
    · have hB' : i / 10 % 10 = j / 10 % 10 := by omega
      rw [hB', lexLe_cons_self]
      have hC : i % 10 < j % 10 := by omega
      exact lexLe_of_head_lt _ _ _ _ (digitChar_lt _ b0i _ b0j hC)

theorem chapterPath_lexLe (outputDir : String) (i j : Nat) (ci cj : Chapter)
    (hij : i < j) (hj : j < 1000) :
    pyStrLe (chapterPath outputDir i ci) (chapterPath outputDir j cj) = true := by
  unfold pyStrLe chapterPath pathJoin
  simp only [String.data_append, List.append_assoc]
  rw [lexLe_append_left, lexLe_append_left]
  exact py03d_append_lexLe i j hij hj _ _

theorem mem_pyEnumFrom {α : Type} (l : List α) (s : Nat) (p : Nat × α)
    (h : p ∈ pyEnumFrom s l) : s ≤ p.1 ∧ p.1 < s + l.length := by
  induction l generalizing s with
  | nil => cases h
  | cons a as ih =>
    rcases List.mem_cons.mp h with h | h
    · subst h; simp
    · have := ih (s + 1) h
      simp only [List.length_cons]
      omega

theorem pairwise_indexOrderedFrom (outputDir : String) (chapters : List Chapter)
    (success : Nat → Bool) (s : Nat) (hlen : s + chapters.length ≤ 1000) :
    List.Pairwise (fun a b => pyStrLe a b = true)
      ((pyEnumFrom s chapters).filterMap
        (fun p => if success p.1 then some (chapterPath outputDir p.1 p.2) else none)) := by
  induction chapters generalizing s with
  | nil => simp [pyEnumFrom]
  | cons c cs ih =>
    simp only [pyEnumFrom, List.filterMap_cons]
    have hrest := ih (s + 1) (by simp only [List.length_cons] at hlen; omega)
    by_cases hs : success s
    · simp only [hs, if_pos]
      refine List.Pairwise.cons ?_ hrest
      intro b hb
      rcases List.mem_filterMap.mp hb with ⟨p, hp, hfp⟩
      by_cases hsp : success p.1
      · simp only [hsp, if_pos, Option.some.injEq] at hfp
        subst hfp
        have hrange := mem_pyEnumFrom cs (s + 1) p hp
        have : s < p.1 := by omega
        have hp1000 : p.1 < 1000 := by
          simp only [List.length_cons] at hlen; omega
        exact chapterPath_lexLe outputDir s p.1 c p.2 this hp1000
      · simp [hsp] at hfp
    · simp only [hs]
      simpa using hrest

theorem insertLe_of_le (a : String) (l : List String)
    (h : ∀ b ∈ l, pyStrLe a b = true) : insertLe a l = a :: l := by
  cases l with
  | nil => rfl
  | cons b bs => simp [insertLe, h b (List.mem_cons_self b bs)]

theorem pySorted_eq_self (l : List String)
    (h : List.Pairwise (fun a b => pyStrLe a b = true) l) : pySorted l = l := by
  induction l with
  | nil => rfl
  | cons a as ih =>
    have hp := List.pairwise_cons.mp h
    simp only [pySorted]
    rw [ih hp.2, insertLe_of_le a as hp.1]

theorem insertLe_length (a : String) (l : List String) :
    (insertLe a l).length = l.length + 1 := by
  induction l with
  | nil => rfl
  | cons b bs ih => by_cases h : pyStrLe a b <;> simp [insertLe, h, ih]

theorem pySorted_length (l : List String) : (pySorted l).length = l.length := by
  induction l with
  | nil => rfl
  | cons a as ih => simp [pySorted, insertLe_length, ih]

theorem enumFrom_nofail_length (d : String) (f : Nat) (chapters : List Chapter) (s : Nat)
    (h : f < s) :
    ((pyEnumFrom s chapters).filterMap
      (fun p => if p.1 != f then some (chapterPath d p.1 p.2) else none)).length
      = chapters.length := by
  induction chapters generalizing s with
  | nil => rfl
  | cons c cs ih =>
    simp only [pyEnumFrom, List.filterMap_cons]
    have hsf : (s != f) = true := by simp; omega
    simp only [hsf, if_pos, List.length_cons]
    rw [ih (s + 1) (by omega)]

theorem enumFrom_fail_length (d : String) (f : Nat) (chapters : List Chapter) (s : Nat)
    (h1 : s ≤ f) (h2 : f < s + chapters.length) :
    ((pyEnumFrom s chapters).filterMap
      (fun p => if p.1 != f then some (chapterPath d p.1 p.2) else none)).length
      = chapters.length - 1 := by
  induction chapters generalizing s with
  | nil => simp only [List.length_nil] at h2; omega
  | cons c cs ih =>
    simp only [pyEnumFrom, List.filterMap_cons]
    by_cases hsf : s = f
    · subst hsf
      simp only [bne_self_eq_false, Bool.false_eq_true, if_false, List.length_cons]
      rw [enumFrom_nofail_length d s cs (s + 1) (by omega)]
      omega
    · have hne : (s != f) = true := by simp [hsf]
      simp only [hne, if_pos, List.length_cons]
      simp only [List.length_cons] at h2
      rw [ih (s + 1) (by omega) (by omega)]
      omega

/- ## C1 and C2 -/

theorem chapterPath_sample (i : Nat) :
    chapterPath "o" i ⟨some "t", "x"⟩ = samplePath i := by
  have hs : sanitize_filename (chapterTitle ⟨some "t", "x"⟩ i) = "t" := by
    show sanitize_filename "t" = "t"
    decide
  rw [chapterPath, hs, samplePath]

theorem indexOrdered_replicate (n s : Nat) :
    (pyEnumFrom s (List.replicate n (⟨some "t", "x"⟩ : Chapter))).filterMap
      (fun p => some (chapterPath "o" p.1 p.2))
      = (List.range' s n).map samplePath := by
  induction n generalizing s with
  | zero => rfl
  | succ m ih =>
    simp only [List.replicate_succ, pyEnumFrom, List.filterMap_cons, List.range'_succ,
      List.map_cons]
    rw [chapterPath_sample, ih]

/-- C1, claim as stated, refuted: with 1001 chapters all succeeding and
completion in index order, the returned list is NOT ordered by the original
chapter index — the file of chapter 1000 (prefix 1000_) sorts
lexicographically before the file of chapter 100 (prefix 100_), because
sorted() compares path strings and the %03d padding no longer aligns. -/
theorem C1_claim_counterexample :
    samplePath 1000 ∈ convert_chapters_to_audio "o" bigChapters (fun _ => true) (List.range 1001) ∧
    samplePath 100 ∈ convert_chapters_to_audio "o" bigChapters (fun _ => true) (List.range 1001) ∧
    (convert_chapters_to_audio "o" bigChapters (fun _ => true) (List.range 1001)).indexOf
        (samplePath 1000)
      < (convert_chapters_to_audio "o" bigChapters (fun _ => true) (List.range 1001)).indexOf
        (samplePath 100) := by
  have h := convert_chapters_eq_sorted "o" bigChapters (fun _ => true) (List.range 1001)
    (by intro i hi; rw [List.mem_range]; simpa [bigChapters] using hi)
  have hfg : (pyEnumFrom 0 (List.replicate 1001 (⟨some "t", "x"⟩ : Chapter))).filterMap
      (fun p => if (fun _ => true) p.1 then some (chapterPath "o" p.1 p.2) else none)
      = (pyEnumFrom 0 (List.replicate 1001 (⟨some "t", "x"⟩ : Chapter))).filterMap
      (fun p => some (chapterPath "o" p.1 p.2)) :=
    List.filterMap_congr (fun p _ => by simp)
  have h2 : indexOrderedResults "o" bigChapters (fun _ => true)
      = (List.range 1001).map samplePath := by
    rw [indexOrderedResults, pyEnum, bigChapters, hfg, indexOrdered_replicate 1001 0,
      List.range_eq_range']
  rw [h, h2]
  decide

/-- C1 (amended): for every list of at most 1000 chapters, every success
pattern and every completion order of the concurrent conversions,
convert_chapters_to_audio returns exactly the successful chapters paths
sorted by original chapter index; the completion order never influences the
result. (Beyond 1000 chapters the lexicographic sort of %03d-padded paths
stops agreeing with the index order.) -/
theorem C1_order_restored (outputDir : String) (chapters : List Chapter)
    (success : Nat → Bool) (sched : List Nat)
    (hlen : chapters.length ≤ 1000)
    (hs : ∀ i, i < chapters.length → i ∈ sched) :
    convert_chapters_to_audio outputDir chapters success sched =
      indexOrderedResults outputDir chapters success := by
  rw [convert_chapters_eq_sorted _ _ _ _ hs]
  exact pySorted_eq_self _
    (pairwise_indexOrderedFrom outputDir chapters success 0 (by omega))

/-- C1 witness: two chapters completing in reversed order (chapter 1 first)
still yield the index-ordered result. -/
theorem C1_order_restored_witness :
    convert_chapters_to_audio "out" [⟨some "Intro", "a"⟩, ⟨none, "b"⟩] (fun _ => true) [1, 0] =
      indexOrderedResults "out" [⟨some "Intro", "a"⟩, ⟨none, "b"⟩] (fun _ => true) :=
  C1_order_restored "out" [⟨some "Intro", "a"⟩, ⟨none, "b"⟩] (fun _ => true) [1, 0]
    (by decide) (by decide)

/-- C2, claim as stated, refuted: with five chapters and the chapter of index
2 failing on every engine, convert_chapters_to_audio returns only FOUR
results, and the failed chapter is absent from the returned list — there is
no failed-but-present entry as the claim requires. -/
theorem C2_claim_counterexample :
    (convert_chapters_to_audio "o" fiveChapters (fun i => i != 2) (List.range 5)).length = 4 ∧
    "o/002_t.mp3" ∉ convert_chapters_to_audio "o" fiveChapters (fun i => i != 2) (List.range 5) := by
  decide

/-- C2 (amended): when one chapter (index f) fails on every engine and the
other chapters succeed, convert_chapters_to_audio returns n-1 results — the
failed chapter is silently omitted from the returned list; no exception is
raised (the embedding is total) and the sibling chapters are all present. -/
theorem C2_failed_chapter_omitted (outputDir : String) (chapters : List Chapter)
    (sched : List Nat) (f : Nat)
    (hs : ∀ i, i < chapters.length → i ∈ sched)
    (hf : f < chapters.length) :
    (convert_chapters_to_audio outputDir chapters (fun i => i != f) sched).length
      = chapters.length - 1 := by
  rw [convert_chapters_eq_sorted _ _ _ _ hs, pySorted_length]
  exact enumFrom_fail_length outputDir f chapters 0 (by omega) (by omega)

/-- C2 witness: five chapters with chapter 2 failing yield four results. -/
theorem C2_failed_chapter_omitted_witness :
    (convert_chapters_to_audio "o" fiveChapters (fun i => i != 2) (List.range 5)).length
      = fiveChapters.length - 1 :=
  C2_failed_chapter_omitted "o" fiveChapters (List.range 5) 2 (by decide) (by decide)

/- ## Lemmas about convert_text_to_audio -/

@[simp] theorem writeFile_files (w : World) (p : String) (b : Bytes) :
    (writeFile w p b).files = (p, b) :: w.files := rfl

@[simp] theorem writeFile_cache (w : World) (p : String) (b : Bytes) :
    (writeFile w p b).cache = w.cache := rfl

@[simp] theorem writeFile_cacheContainsFails (w : World) (p : String) (b : Bytes) :
    (writeFile w p b).cacheContainsFails = w.cacheContainsFails := rfl

@[simp] theorem writeFile_cacheGetFails (w : World) (p : String) (b : Bytes) :
    (writeFile w p b).cacheGetFails = w.cacheGetFails := rfl

@[simp] theorem writeFile_hitWriteFails (w : World) (p : String) (b : Bytes) :
    (writeFile w p b).hitWriteFails = w.hitWriteFails := rfl

@[simp] theorem writeFile_readBackFails (w : World) (p : String) (b : Bytes) :
    (writeFile w p b).readBackFails = w.readBackFails := rfl

@[simp] theorem writeFile_cacheSetFails (w : World) (p : String) (b : Bytes) :
    (writeFile w p b).cacheSetFails = w.cacheSetFails := rfl

@[simp] theorem writeFile_engineOut (w : World) (p : String) (b : Bytes) :
    (writeFile w p b).engineOut = w.engineOut := rfl

@[simp] theorem cacheStore_files (w : World) (k : String) (b : Bytes) :
    (cacheStore w k b).files = w.files := rfl

@[simp] theorem cacheStore_cache (w : World) (k : String) (b : Bytes) :
    (cacheStore w k b).cache = (k, b) :: w.cache := rfl

@[simp] theorem cacheStore_cacheContainsFails (w : World) (k : String) (b : Bytes) :
    (cacheStore w k b).cacheContainsFails = w.cacheContainsFails := rfl

@[simp] theorem cacheStore_cacheGetFails (w : World) (k : String) (b : Bytes) :
    (cacheStore w k b).cacheGetFails = w.cacheGetFails := rfl

@[simp] theorem cacheStore_hitWriteFails (w : World) (k : String) (b : Bytes) :
    (cacheStore w k b).hitWriteFails = w.hitWriteFails := rfl

@[simp] theorem cacheStore_readBackFails (w : World) (k : String) (b : Bytes) :
    (cacheStore w k b).readBackFails = w.readBackFails := rfl

@[simp] theorem cacheStore_cacheSetFails (w : World) (k : String) (b : Bytes) :
    (cacheStore w k b).cacheSetFails = w.cacheSetFails := rfl

@[simp] theorem cacheStore_engineOut (w : World) (k : String) (b : Bytes) :
    (cacheStore w k b).engineOut = w.engineOut := rfl

@[simp] theorem lookupA_cons_self (k : String) (b : Bytes) (m : List (String × Bytes)) :
    lookupA ((k, b) :: m) k = some b := by
  simp [lookupA]

theorem synth_and_cache_success (conv : TTSConv) (w : World) (text outputPath key : String)
    (b : Bytes) (he : engine_dispatch w conv.engine text = some b) :
    ∃ w', synth_and_cache conv w text outputPath key = (true, w') := by
  rw [synth_and_cache, he]
  by_cases hen : conv.cacheEnabled
  · by_cases hrb : w.readBackFails
    · exact ⟨writeFile w outputPath b, by simp [hen, hrb]⟩
    · by_cases hset : w.cacheSetFails
      · exact ⟨writeFile w outputPath b, by simp [hen, hrb, hset]⟩
      · exact ⟨cacheStore (writeFile w outputPath b) key b, by simp [hen, hrb, hset]⟩
  · exact ⟨writeFile w outputPath b, by simp [hen]⟩

theorem pyStrip_of_all_space (t : String) (h : t.data.all isPySpace = true) : pyStrip t = "" := by
  have h1 : t.data.dropWhile isPySpace = [] := by
    rw [List.dropWhile_eq_nil_iff]
    intro x hx
    exact List.all_eq_true.mp h x hx
  rw [pyStrip, h1]
  rfl

/- ## C10 -/

/-- C10: for every converter state, every world and every output path, a text
that is empty or consists only of whitespace makes convert_text_to_audio
return False with the world unchanged. Because this holds for every cache
content, every failure switch (including a membership test that would raise)
and every engine oracle, the early guard returns before the cache is read or
written, before any synthesis engine is invoked and before the output file is
created. -/
theorem C10_empty_text (conv : TTSConv) (w : World) (text outputPath : String)
    (h : text.data.all isPySpace = true) :
    convert_text_to_audio conv w text outputPath = Except.ok (false, w) := by
  have hs := pyStrip_of_all_space text h
  rw [convert_text_to_audio, if_pos (Or.inr hs)]

/-- C10 witness: a whitespace-only text on a world where every cache
operation would raise still returns False with nothing changed. -/
theorem C10_empty_text_witness :
    convert_text_to_audio ⟨"edge-tts", "v", "1.0", true⟩
      ⟨[], [], true, true, true, true, true, fun _ _ => some [1]⟩ " \t" "o.mp3"
      = Except.ok (false, ⟨[], [], true, true, true, true, true, fun _ _ => some [1]⟩) :=
  C10_empty_text _ _ " \t" "o.mp3" (by decide)

/- ## C3 -/

/-- C3, claim as stated, refuted: the active engine edge-tts fails on the
text while the next-priority available engine gtts would synthesize it, yet
convert_text_to_audio returns False with the world unchanged — the chapter is
marked failed without any fallback engine being invoked (a gtts invocation
would have produced an output file), so the chapter fails even though not
every engine was exhausted. -/
theorem C3_claim_counterexample :
    convert_text_to_audio ⟨"edge-tts", "v", "1.0", true⟩ c3World "hello" "o.mp3"
      = Except.ok (false, c3World) ∧
    c3World.engineOut "gtts" "hello" = some [7] :=
  ⟨rfl, rfl⟩

/-- C3 (amended): engine fallback exists only at construction time — an
unsupported engine name falls back to edge-tts, and a failed Coqui model load
falls back to edge-tts; at conversion time convert_text_to_audio consults
exactly the active engine, and when that engine fails (on a cache miss, with
a non-raising membership test) the call returns False immediately, with the
world unchanged and no other engine attempted. -/
theorem C3_no_runtime_fallback :
    (∀ requested : String, requested ∉ supported_engines →
      ∀ a b : Bool, initEngine requested a b = "edge-tts") ∧
    initEngine "coqui-xtts" true false = "edge-tts" ∧
    (∀ (conv : TTSConv) (w : World) (text outputPath : String),
      w.cacheContainsFails = false →
      lookupA w.cache (get_cache_key conv text) = none →
      engine_dispatch w conv.engine text = none →
      convert_text_to_audio conv w text outputPath = Except.ok (false, w)) := by
  refine ⟨?_, rfl, ?_⟩
  · intro requested hr a b
    rw [initEngine, if_neg hr]
  · intro conv w text outputPath hc hl he
    rw [convert_text_to_audio]
    by_cases ht : text = "" ∨ pyStrip text = ""
    · rw [if_pos ht]
    · rw [if_neg ht]
      have hsynth : synth_and_cache conv w text outputPath (get_cache_key conv text)
          = (false, w) := by
        rw [synth_and_cache, he]
      by_cases hen : conv.cacheEnabled
      · simp only [hen, if_true, hc, Bool.false_eq_true, if_false, hl, hsynth]
      · simp only [hen, Bool.false_eq_true, if_false, hsynth]

/-- C3 witness: an unknown engine name is replaced by edge-tts at
construction, and a conversion whose active engine fails returns False. -/
theorem C3_no_runtime_fallback_witness :
    initEngine "espeak" true true = "edge-tts" ∧
    convert_text_to_audio ⟨"edge-tts", "v", "1.0", true⟩ c3bWorld "hi" "o.mp3"
      = Except.ok (false, c3bWorld) :=
  ⟨C3_no_runtime_fallback.1 "espeak" (by decide) true true,
   C3_no_runtime_fallback.2.2 ⟨"edge-tts", "v", "1.0", true⟩ c3bWorld "hi" "o.mp3" rfl rfl rfl⟩

/- ## C5 -/

/-- C5, claim as stated, refuted: the membership test (key in self.cache) is
outside every try block of convert_text_to_audio, so when the unavailable or
corrupted cache store raises there, the exception propagates to the caller
even though the engine could synthesize the text — contradicting that no
exception originating in the cache reaches the caller. -/
theorem C5_claim_counterexample :
    convert_text_to_audio ⟨"edge-tts", "v", "1.0", true⟩ c5World "hello" "o.mp3"
      = Except.error () ∧
    c5World.engineOut "edge-tts" "hello" = some [1] :=
  ⟨rfl, rfl⟩

/-- C5 (amended): every cache failure except one is harmless. As long as the
unguarded membership test does not raise, then whatever the cache contents
and whatever combination of cache-read, cached-bytes-write, read-back and
cache-store failures occurs, a non-empty text that the active engine can
synthesize converts successfully: a failing read of a hit entry degrades to
direct synthesis, and store failures are swallowed as non-fatal. Only an
exception from the membership test itself escapes to the caller (see the
counterexample). -/
theorem C5_cache_degrades (conv : TTSConv) (w : World) (text outputPath : String) (b : Bytes)
    (hc : w.cacheContainsFails = false)
    (ht : ¬ (text = "" ∨ pyStrip text = ""))
    (he : engine_dispatch w conv.engine text = some b) :
    ∃ w', convert_text_to_audio conv w text outputPath = Except.ok (true, w') := by
  rw [convert_text_to_audio, if_neg ht]
  obtain ⟨w', hw'⟩ := synth_and_cache_success conv w text outputPath (get_cache_key conv text) b he
  by_cases hen : conv.cacheEnabled
  · simp only [hen, if_true, hc, Bool.false_eq_true, if_false]
    cases hl : lookupA w.cache (get_cache_key conv text) with
    | none => exact ⟨w', by rw [hw']⟩
    | some bb =>
      by_cases hget : w.cacheGetFails
      · exact ⟨w', by simp only [hget, if_true, hw']⟩
      · by_cases hwr : w.hitWriteFails
        · exact ⟨w', by simp only [hget, Bool.false_eq_true, if_false, hwr, if_true, hw']⟩
        · exact ⟨writeFile w outputPath bb,
            by simp only [hget, Bool.false_eq_true, if_false, hwr]⟩
  · exact ⟨w', by simp only [hen, Bool.false_eq_true, if_false, hw']⟩

/-- C5 witness: with a present cache entry whose read raises, a cached-write,
read-back and store that all raise, and a working gtts backend, the call
still succeeds. -/
theorem C5_cache_degrades_witness :
    ∃ w', convert_text_to_audio ⟨"gtts", "v", "1.0", true⟩ c5bWorld "hi" "o.mp3"
      = Except.ok (true, w') :=
  C5_cache_degrades ⟨"gtts", "v", "1.0", true⟩ c5bWorld "hi" "o.mp3" [2] rfl (by decide) rfl

/- ## C4 -/

/-- C4: with caching enabled, no cache or file operation failing, and a first
call that succeeded, the cache then holds under the key derived from (text,
engine, voice, rate) exactly the bytes the first call wrote to its output
path, and a second call with the identical text and converter takes the
cache-hit path: it succeeds, its only effect is writing the cached bytes to
the second output path, and those bytes are byte-identical to the first
output. Determinism of synthesis is inherent in the model: the engine oracle
is a fixed function of the world, and the second call never consults it. -/
theorem C4_cache_hit_second_call (conv : TTSConv) (w : World) (text p1 p2 : String)
    (w1 : World)
    (hen : conv.cacheEnabled = true)
    (h1 : w.cacheContainsFails = false) (h2 : w.cacheGetFails = false)
    (h3 : w.hitWriteFails = false) (h4 : w.readBackFails = false)
    (h5 : w.cacheSetFails = false)
    (hfirst : convert_text_to_audio conv w text p1 = Except.ok (true, w1)) :
    ∃ b, lookupA w1.cache (get_cache_key conv text) = some b ∧
      lookupA w1.files p1 = some b ∧
      convert_text_to_audio conv w1 text p2 = Except.ok (true, writeFile w1 p2 b) ∧
      lookupA (writeFile w1 p2 b).files p2 = lookupA w1.files p1 := by
  by_cases ht : text = "" ∨ pyStrip text = ""
  · rw [convert_text_to_audio, if_pos ht] at hfirst
    simp at hfirst
  · rw [convert_text_to_audio, if_neg ht] at hfirst
    simp only [hen, if_true, h1, Bool.false_eq_true, if_false] at hfirst
    cases hl : lookupA w.cache (get_cache_key conv text) with
    | some b =>
      rw [hl] at hfirst
      simp only [h2, Bool.false_eq_true, if_false, h3] at hfirst
      have hw1 : w1 = writeFile w p1 b := by
        simp only [Except.ok.injEq, Prod.mk.injEq] at hfirst
        exact hfirst.2.symm
      subst hw1
      refine ⟨b, ?_, ?_, ?_, ?_⟩
      · simpa using hl
      · simp
      · rw [convert_text_to_audio, if_neg ht]
        have hl2 : lookupA (writeFile w p1 b).cache (get_cache_key conv text) = some b := by
          simpa using hl
        simp only [hen, if_true, writeFile_cacheContainsFails, h1, Bool.false_eq_true,
          if_false, hl2, writeFile_cacheGetFails, h2, writeFile_hitWriteFails, h3]
      · simp
    | none =>
      rw [hl, synth_and_cache] at hfirst
      cases hd : engine_dispatch w conv.engine text with
      | none => rw [hd] at hfirst; simp at hfirst
      | some bb =>
        rw [hd] at hfirst
        simp only [hen, if_true, writeFile_readBackFails, h4, Bool.false_eq_true, if_false,
          writeFile_files, lookupA_cons_self, writeFile_cacheSetFails, h5] at hfirst
        have hw1 : w1 = cacheStore (writeFile w p1 bb) (get_cache_key conv text) bb := by
          simp only [Except.ok.injEq, Prod.mk.injEq] at hfirst
          exact hfirst.2.symm
        subst hw1
        refine ⟨bb, ?_, ?_, ?_, ?_⟩
        · simp
        · simp
        · rw [convert_text_to_audio, if_neg ht]
          simp only [hen, if_true, cacheStore_cacheContainsFails, writeFile_cacheContainsFails,
            h1, Bool.false_eq_true, if_false, cacheStore_cache, lookupA_cons_self,
            cacheStore_cacheGetFails, writeFile_cacheGetFails, h2,
            cacheStore_hitWriteFails, writeFile_hitWriteFails, h3]
        · simp

/-- C4 witness: two calls with the text hi on the gtts engine. The first call
synthesizes bytes 1,2,3, writes them to the first output path and caches
them; the theorem then yields that the second call hits the cache and writes
byte-identical output. -/
theorem C4_cache_hit_second_call_witness :
    ∃ b, lookupA c4World1.cache (get_cache_key c4Conv "hi") = some b ∧
      lookupA c4World1.files "o1.mp3" = some b ∧
      convert_text_to_audio c4Conv c4World1 "hi" "o2.mp3"
        = Except.ok (true, writeFile c4World1 "o2.mp3" b) ∧
      lookupA (writeFile c4World1 "o2.mp3" b).files "o2.mp3"
        = lookupA c4World1.files "o1.mp3" :=
  C4_cache_hit_second_call c4Conv c4World "hi" "o1.mp3" "o2.mp3" c4World1
    rfl rfl rfl rfl rfl rfl rfl

/- ## Lemmas about the merger -/

theorem combineAux_filter (m : AudioMerger) (w : MergeWorld) :
    ∀ (files : List String) (acc : Option AudioSeg),
      combineAux m w acc files
        = combineAux m w acc (files.filter (fun f => isAudioF (w.status f))) := by
  intro files
  induction files with
  | nil => intro acc; rfl
  | cons f fs ih =>
    intro acc
    cases hst : w.status f with
    | missing =>
      rw [List.filter_cons]
      simp only [hst, isAudioF, Bool.false_eq_true, if_false]
      simp only [combineAux, hst]
      exact ih acc
    | undecodable =>
      rw [List.filter_cons]
      simp only [hst, isAudioF, Bool.false_eq_true, if_false]
      simp only [combineAux, hst]
      exact ih acc
    | audio a =>
      rw [List.filter_cons]
      simp only [hst, isAudioF, if_true]
      cases acc with
      | none =>
        simp only [combineAux, hst]
        exact ih (some a)
      | some c =>
        simp only [combineAux, hst]
        exact ih (some (appendSeg (appendSeg c (silentSeg m.silenceMs)) a))

theorem combineAux_some_duration (m : AudioMerger) (w : MergeWorld) :
    ∀ (files : List String) (acc : AudioSeg),
      (∀ f ∈ files, isAudioF (w.status f) = true) →
      ∃ c : AudioSeg, combineAux m w (some acc) files = some c ∧
        c.durationMs = acc.durationMs
          + (files.map (fun f => statusDurationMs (w.status f))).sum
          + (files.length : ℚ) * m.silenceMs := by
  intro files
  induction files with
  | nil => intro acc _; exact ⟨acc, rfl, by simp⟩
  | cons f fs ih =>
    intro acc hall
    have hf := hall f (List.mem_cons_self f fs)
    cases hst : w.status f with
    | missing => rw [hst] at hf; simp [isAudioF] at hf
    | undecodable => rw [hst] at hf; simp [isAudioF] at hf
    | audio a =>
      have step : combineAux m w (some acc) (f :: fs)
          = combineAux m w (some (appendSeg (appendSeg acc (silentSeg m.silenceMs)) a)) fs := by
        simp only [combineAux, hst]
      obtain ⟨c, hc, hd⟩ := ih (appendSeg (appendSeg acc (silentSeg m.silenceMs)) a)
        (fun g hg => hall g (List.mem_cons_of_mem f hg))
      refine ⟨c, by rw [step, hc], ?_⟩
      rw [hd]
      simp only [appendSeg, silentSeg, List.map_cons, List.sum_cons, List.length_cons, hst,
        statusDurationMs]
      push_cast
      ring

/- ## C6 -/

/-- C6, claim as stated, refuted: with the input list [gone.mp3, empty.mp3],
where gone.mp3 is missing and empty.mp3 decodes to a zero-length segment,
one decodable file remains after skipping, yet merge_audio_files fails: the
combined segment has length 0, so the falsiness test (if not combined_audio)
treats it like None and returns False before export, although export would
succeed — the call does not succeed on the remaining files as the claim
requires. -/
theorem C6_claim_counterexample :
    merge_audio_files ⟨1000⟩ c6World ["gone.mp3", "empty.mp3"]
      = { success := false, output := none } ∧
    isAudioF (c6World.status "empty.mp3") = true ∧
    c6World.exportOk = true :=
  ⟨rfl, rfl, rfl⟩

/-- C6 (amended): merging skips missing and undecodable files and proceeds
with the remaining ones — combining a list equals combining just its
decodable files; an empty input list, a list with zero decodable files, and
(the case the claim misses) remaining files whose combined track has zero
length all return a fatal failure without producing any output file; when
the combined track has nonzero length and the export succeeds, the merge
succeeds on the remaining files. -/
theorem C6_skip_and_fail_empty (m : AudioMerger) (w : MergeWorld) :
    (∀ files : List String,
      combine_audio_files m w files
        = combine_audio_files m w (files.filter (fun f => isAudioF (w.status f)))) ∧
    merge_audio_files m w [] = { success := false, output := none } ∧
    (∀ files : List String, combine_audio_files m w files = none →
      merge_audio_files m w files = { success := false, output := none }) ∧
    (∀ files : List String, ∀ c : AudioSeg, combine_audio_files m w files = some c →
      segLenMs c = 0 →
      merge_audio_files m w files = { success := false, output := none }) ∧
    (∀ files : List String, ∀ c : AudioSeg, combine_audio_files m w files = some c →
      segLenMs c ≠ 0 → w.exportOk = true →
      merge_audio_files m w files = { success := true, output := some (normalize_audio c) }) := by
  refine ⟨fun files => combineAux_filter m w files none, rfl, ?_, ?_, ?_⟩
  · intro files hc
    cases files with
    | nil => rfl
    | cons f fs =>
      rw [merge_audio_files, if_neg (by simp), hc]
  · intro files c hc hlen
    cases files with
    | nil => cases hc
    | cons f fs =>
      rw [merge_audio_files, if_neg (by simp), hc]
      simp [hlen]
  · intro files c hc hlen hexp
    cases files with
    | nil => cases hc
    | cons f fs =>
      rw [merge_audio_files, if_neg (by simp), hc]
      simp [hlen, hexp]

/-- C6 witness: a single decodable 2-second file merges successfully into a
normalized output. -/
theorem C6_skip_and_fail_empty_witness :
    merge_audio_files ⟨1000⟩ c7World ["a.mp3"]
      = { success := true, output := some (normalize_audio ⟨2000, 1⟩) } :=
  (C6_skip_and_fail_empty ⟨1000⟩ c7World).2.2.2.2 ["a.mp3"] ⟨2000, 1⟩ rfl
    (by norm_num [segLenMs]) rfl

/- ## C7 -/

/-- C7: when every listed file decodes (k files, k at least 1), the combined
track exists and its duration equals the sum of the k file durations plus
(k - 1) times the configured silence — silence is inserted only between
consecutive files. The model tracks exact milliseconds, so the small
decoding tolerance the claim allows is not needed. -/
theorem C7_silence_between (m : AudioMerger) (w : MergeWorld) (files : List String)
    (hne : files ≠ [])
    (hall : ∀ f ∈ files, isAudioF (w.status f) = true) :
    ∃ c : AudioSeg, combine_audio_files m w files = some c ∧
      c.durationMs = (files.map (fun f => statusDurationMs (w.status f))).sum
        + ((files.length : ℚ) - 1) * m.silenceMs := by
  cases files with
  | nil => exact absurd rfl hne
  | cons f fs =>
    have hf := hall f (List.mem_cons_self f fs)
    cases hst : w.status f with
    | missing => rw [hst] at hf; simp [isAudioF] at hf
    | undecodable => rw [hst] at hf; simp [isAudioF] at hf
    | audio a =>
      have step : combine_audio_files m w (f :: fs) = combineAux m w (some a) fs := by
        simp only [combine_audio_files, combineAux, hst]
      obtain ⟨c, hc, hd⟩ := combineAux_some_duration m w fs a
        (fun g hg => hall g (List.mem_cons_of_mem f hg))
      refine ⟨c, by rw [step, hc], ?_⟩
      rw [hd]
      simp only [List.map_cons, List.sum_cons, List.length_cons, hst, statusDurationMs]
      push_cast
      ring

/-- C7 witness: chapters of 2.0 s and 3.0 s with 1.0 s of silence give a
combined track of 2000 + 3000 + (2 - 1) * 1000 = 6000 ms. -/
theorem C7_silence_between_witness :
    ∃ c : AudioSeg, combine_audio_files ⟨1000⟩ c7World ["a.mp3", "b.mp3"] = some c ∧
      c.durationMs = ((["a.mp3", "b.mp3"].map
          (fun f => statusDurationMs (c7World.status f))).sum
        + (((["a.mp3", "b.mp3"] : List String).length : ℚ) - 1)
          * (AudioMerger.mk 1000).silenceMs) :=
  C7_silence_between ⟨1000⟩ c7World ["a.mp3", "b.mp3"] (by decide) (by decide)

/- ## C9 -/

/-- C9: for every track whose loudness is defined (positive power, dBFS above
minus infinity), _normalize_audio applies the uniform gain
-20.0 - dBFS(track) — in power terms the factor (1/100)/power — so the
result lands exactly on the -20 dBFS target (power 1/100) with the duration
unchanged; when the computation fails (digital silence) the original audio
is returned unchanged; and inside merge_audio_files the normalization
outcome never aborts the merge — the export step runs on the normalized
track in either case. -/
theorem C9_normalize_target (a : AudioSeg) :
    (0 < a.power →
      normalize_audio a = applyGainPow a (1 / 100 / a.power) ∧
      (normalize_audio a).power = 1 / 100 ∧
      (normalize_audio a).durationMs = a.durationMs) ∧
    (a.power = 0 → normalize_audio a = a) ∧
    (∀ (m : AudioMerger) (w : MergeWorld) (files : List String) (c : AudioSeg),
      combine_audio_files m w files = some c → segLenMs c ≠ 0 → w.exportOk = true →
      (merge_audio_files m w files).success = true ∧
      (merge_audio_files m w files).output = some (normalize_audio c)) := by
  refine ⟨?_, ?_, ?_⟩
  · intro hp
    have hne : a.power ≠ 0 := ne_of_gt hp
    refine ⟨by rw [normalize_audio, if_pos hp], ?_, ?_⟩
    · rw [normalize_audio, if_pos hp]
      simp only [applyGainPow]
      field_simp
      ring
    · rw [normalize_audio, if_pos hp]
      rfl
  · intro hp
    rw [normalize_audio, if_neg (by rw [hp]; exact lt_irrefl 0)]
  · intro m w files c hc hlen hexp
    cases files with
    | nil => cases hc
    | cons f fs =>
      rw [merge_audio_files, if_neg (by simp), hc]
      simp [hlen, hexp]

/-- C9 witness: a full-scale 5-second track normalizes to power 1/100
(-20 dBFS) with its duration kept, and digital silence is returned
unchanged. -/
theorem C9_normalize_target_witness :
    normalize_audio ⟨5000, 1⟩ = applyGainPow ⟨5000, 1⟩ (1 / 100 / (1 : ℚ)) ∧
    (normalize_audio ⟨5000, 1⟩).power = 1 / 100 ∧
    (normalize_audio ⟨5000, 1⟩).durationMs = (5000 : ℚ) ∧
    normalize_audio ⟨3000, 0⟩ = ⟨3000, 0⟩ :=
  ⟨((C9_normalize_target ⟨5000, 1⟩).1 (by norm_num)).1,
   ((C9_normalize_target ⟨5000, 1⟩).1 (by norm_num)).2.1,
   ((C9_normalize_target ⟨5000, 1⟩).1 (by norm_num)).2.2,
   (C9_normalize_target ⟨3000, 0⟩).2.1 rfl⟩

/- ## C8 -/

/-- C8: evaluation of the observed speed adjustment at speed 3/2 on a
2-second 22050 Hz clip: _adjust_audio_speed relabels the frame rate to
int(22050 * 1.5) = 33075 and resamples back to 22050, so the duration indeed
becomes 2/1.5 = 4/3 seconds, but the perceived pitch is multiplied by 3/2 —
the step is a frame-rate reinterpretation that shifts pitch, not the
pitch-preserving time-stretch the claim (and the comment in the code itself,
"to maintain pitch") requires. -/
theorem C8_speed_shifts_pitch :
    adjust_audio_speed ⟨44100, 22050, 1⟩ (3 / 2)
      = { frames := 29400, frameRate := 22050, pitchFactor := 3 / 2 } ∧
    durationSec (adjust_audio_speed ⟨44100, 22050, 1⟩ (3 / 2)) = 4 / 3 ∧
    (adjust_audio_speed ⟨44100, 22050, 1⟩ (3 / 2)).pitchFactor ≠ 1 := by
  have h1 : ((22050 : ℚ) * (3 / 2)) = ((33075 : ℤ) : ℚ) := by norm_num
  have hmain : adjust_audio_speed ⟨44100, 22050, 1⟩ (3 / 2)
      = { frames := 29400, frameRate := 22050, pitchFactor := 3 / 2 } := by
    rw [adjust_audio_speed]
    simp only [spawnWithFrameRate, set_frame_rate]
    rw [show (⌊(⟨44100, 22050, 1⟩ : RawAudio).frameRate * (3 / 2)⌋ : ℤ) = (33075 : ℤ) by
      show (⌊(22050 : ℚ) * (3 / 2)⌋ : ℤ) = (33075 : ℤ)
      rw [h1, Int.floor_intCast]]
    simp only [RawAudio.mk.injEq]
    norm_num
  refine ⟨hmain, ?_, ?_⟩
  · rw [hmain]
    show (29400 : ℚ) / 22050 = 4 / 3
    norm_num
  · rw [hmain]
    norm_num
